import Mathlib

/-!
Shallow embedding of the marketplace AI service (recommendation and
classification services) together with theorems checking the
natural-language specification against the code.

Conventions of the embedding:
* SQLAlchemy rows become Lean structures; the three tables the services
  read (`products`, `orders`, `order_items`) are passed to each operation
  as explicit lists, standing for the database session.
* `DECIMAL` columns become `ℚ`; integer ids and counters become `Nat`;
  `DateTime` becomes an integer timestamp.
* Nullable columns become `Option`; Python truthiness tests on values
  (`if not category_id`, `if product.description`, `if product.tags`)
  are translated explicitly, including their behaviour on `0`, `""`, `[]`.
* Python dicts keep insertion order, so they are embedded as association
  lists; Python sets used only for membership become lists queried with
  membership.
* `faiss` index searches are embedded as an oracle `Nat → List (ℚ × Option Nat)`:
  the argument is the requested neighbour count, each result is a
  (score, label) pair where `none` stands for the faiss sentinel label `-1`
  and `some i` for a valid internal position `i ≥ 0`.
* The sentence-transformer encoder and the L2 normalisation are opaque
  external functions and are passed as parameters to the index build.
* Filesystem/pickle effects in the artifact loaders are embedded as a
  small state record of existence/readability flags, with `Except`
  modelling a propagating Python exception.
-/

namespace Marketplace

/-- One row of the `products` table (backend `app/models/product.py`):
`price` and `category_id` are `nullable=False`, `description`, `images`
and `tags` are nullable. Only the columns read by the AI services are kept. -/
structure Product where
  id : Nat
  title : String
  description : Option String := none
  categoryId : Nat
  price : ℚ
  images : List String := []
  tags : Option (List String) := none
  status : String
  rating : ℚ := 0
  salesCount : Nat := 0
  createdAt : Int := 0
  deriving Repr, DecidableEq

/-- One row of the `orders` table: the columns read by the recommendation
service (`buyer_id`, `status`, `created_at`). -/
structure Order where
  id : Nat
  buyerId : Nat
  status : String
  createdAt : Int := 0
  deriving Repr, DecidableEq

/-- One row of the `order_items` table: the columns read by the
recommendation service. -/
structure OrderItem where
  id : Nat
  orderId : Nat
  productId : Nat
  quantity : Nat := 1
  deriving Repr, DecidableEq

/-- A recommendation entry as returned by every strategy of
`RecommendationService`: the dict
`{product_id, title, price, image_url, score, reason}`. -/
structure RecItem where
  productId : Nat
  title : String
  price : ℚ
  imageUrl : Option String
  score : ℚ
  reason : String
  deriving Repr, DecidableEq

/-- Truthiness of a Python optional integer: `None` and `0` are falsy. -/
def pyTruthy : Option Nat → Bool
  | none => false
  | some 0 => false
  | some _ => true

/-- Order statuses counted as a qualifying purchase, from
`Order.status.in_(["paid", "processing", "shipped", "delivered"])`. -/
def qualifyingStatuses : List String := ["paid", "processing", "shipped", "delivered"]

/-! ## Classification service (`app/services/classification_service.py`) -/

/-- The price-range suggestion dict
`{min_price, max_price, average_price}` of `_suggest_price_range`. -/
structure PriceRange where
  minPrice : ℚ
  maxPrice : ℚ
  averagePrice : ℚ
  deriving Repr, DecidableEq

/-- The query of `_suggest_price_range`: prices of products of the category
with `status == "active"` and `price.isnot(None)`; `price` is a non-null
column, so the null filter is vacuous in the embedding. -/
def categoryActivePrices (categoryId : Nat) (products : List Product) : List ℚ :=
  (products.filter (fun p => p.categoryId = categoryId && p.status = "active")).map (·.price)

/-- `_suggest_price_range(title, description, category_id)`: `title` and
`description` are never read.  Guard `if not category_id: return None`
(falsy on `None` and `0`); empty price list returns `None`; otherwise
min/max/mean with `suggested_min = max(min_price, avg*0.7)` and
`suggested_max = min(max_price, avg*1.3)`. -/
def _suggest_price_range (categoryId : Option Nat) (products : List Product) :
    Option PriceRange :=
  if pyTruthy categoryId then
    match categoryId with
    | none => none
    | some cid =>
      match categoryActivePrices cid products with
      | [] => none
      | q :: qs =>
        let minPrice := qs.foldl min q
        let maxPrice := qs.foldl max q
        let avgPrice := (q :: qs).sum / ((q :: qs).length : ℚ)
        some ⟨max minPrice (avgPrice * (7/10)), min maxPrice (avgPrice * (13/10)), avgPrice⟩
  else none

/-- One step of building a `collections.Counter` by iterating a list:
an existing key's count is bumped in place, a fresh key is appended
(insertion order). -/
def countOccsStep (acc : List (String × Nat)) (t : String) : List (String × Nat) :=
  if acc.any (fun p => p.1 = t) then
    acc.map (fun p => if p.1 = t then (p.1, p.2 + 1) else p)
  else acc ++ [(t, 1)]

/-- `collections.Counter` built by iterating a list: an association list in
first-occurrence order, each key with its number of occurrences. -/
def countOccs (l : List String) : List (String × Nat) :=
  l.foldl countOccsStep []

/-- `Counter(l).most_common(n)` keeping only the elements: a stable sort of
the counter's items by descending count (ties keep first-encounter order),
truncated to `n`. -/
def mostCommonKeys (n : Nat) (l : List String) : List String :=
  (((countOccs l).mergeSort (fun a b => decide (b.2 ≤ a.2))).take n).map Prod.fst

/-- The query of `_get_category_tags`: products of the category with
`tags.isnot(None)`, `.limit(100)`.  The query has NO status filter. -/
def categoryTagSample (categoryId : Nat) (products : List Product) : List Product :=
  (products.filter (fun p => p.categoryId = categoryId && p.tags ≠ none)).take 100

/-- One step of the `all_tags` accumulation loop of `_get_category_tags`:
`if product.tags: all_tags.extend(product.tags)` (a null or empty tag
list — both falsy — is skipped). -/
def flattenStep (acc : List String) (p : Product) : List String :=
  match p.tags with
  | some ts => if ts ≠ [] then acc ++ ts else acc
  | none => acc

/-- The `all_tags` list of `_get_category_tags`: the tag lists of the
sample, flattened in order. -/
def flattenTags (sample : List Product) : List String :=
  sample.foldl flattenStep []

/-- `_get_category_tags(category_id)`: sample up to 100 products of the
category with non-null tags, flatten their tag lists, return the keys of
`Counter(all_tags).most_common(10)`. -/
def _get_category_tags (categoryId : Nat) (products : List Product) : List String :=
  mostCommonKeys 10 (flattenTags (categoryTagSample categoryId products))

/-- Modelled from the spec: `GetCategoryTags(categoryId)` — "sample up to
100 ACTIVE products in the category, flatten their tag lists, return the
10 most frequent".  Differs from `_get_category_tags` only in restricting
the sample to `status == "active"` products, as the spec's words require. -/
def getCategoryTagsSpec (categoryId : Nat) (products : List Product) : List String :=
  mostCommonKeys 10 (flattenTags
    ((products.filter
      (fun p => p.categoryId = categoryId && p.status = "active" && p.tags ≠ none)).take 100))

/-- The text `classify_product` builds from its arguments:
`text = title` then `if description: text += " " + description`
(an empty description string is falsy and skipped). -/
def classifyText (title : String) (description : Option String) : String :=
  title ++ (match description with
    | some d => if d ≠ "" then " " ++ d else ""
    | none => "")

/-- The category classifier pipeline as an inference oracle: `predict` and
`predict_proba` on a single text each either return a value or raise
(`Except.error`).  The trained pipeline object itself is truthy, so
`if self.category_classifier:` is `Option.isSome` in the embedding. -/
structure CategoryClassifier where
  predict : String → Except Unit Nat
  predictProba : String → Except Unit ℚ

/-- The prediction block of `classify_product`: starts from
`predicted_category_id = None`, `confidence = 0.0`; inside
`try: predicted_category_id = ...predict...; confidence = ...predict_proba...`
a failing `predict` leaves both defaults, a failing `predict_proba` keeps
the already-assigned prediction with confidence `0.0`; `except: pass`. -/
def classifyPredict (classifier : Option CategoryClassifier) (text : String) :
    Option Nat × ℚ :=
  match classifier with
  | none => (none, 0)
  | some c =>
    match c.predict text with
    | .error _ => (none, 0)
    | .ok cid =>
      match c.predictProba text with
      | .error _ => (some cid, 0)
      | .ok conf => (some cid, conf)

/-- `predicted_category_id or 1` — substitute the default category id `1`
for a falsy prediction (`None`, and Python also for `0`). -/
def defaultedCategoryId (predicted : Option Nat) : Nat :=
  match predicted with
  | none => 1
  | some 0 => 1
  | some c => c

/-- The category fields of the `classify_product` result dict (the tag and
price-range fields are produced by `generate_tags` and
`_suggest_price_range`, embedded separately). -/
structure ClassifyResult where
  categoryId : Nat
  categoryName : String
  confidence : ℚ
  suggestedPriceRange : Option PriceRange
  deriving Repr, DecidableEq

/-- A row of the `categories` table as read by `classify_product`. -/
structure Category where
  id : Nat
  name : String
  deriving Repr, DecidableEq

/-- `classify_product(title, description)`: combine title and description
(`if description:` — empty string falsy), run the prediction block, look
up the category name for a truthy prediction, default the category id,
and attach the suggested price range. -/
def classify_product (classifier : Option CategoryClassifier)
    (categories : List Category) (products : List Product)
    (title : String) (description : Option String) : ClassifyResult :=
  let pred := classifyPredict classifier (classifyText title description)
  let categoryName :=
    if pyTruthy pred.1 then
      match pred.1 with
      | some cid =>
        match categories.find? (fun c => c.id = cid) with
        | some c => c.name
        | none => "Unknown"
      | none => "Unknown"
    else "Unknown"
  { categoryId := defaultedCategoryId pred.1
    categoryName := categoryName
    confidence := pred.2
    suggestedPriceRange := _suggest_price_range pred.1 products }

/-! ## Recommendation service (`app/services/recommendation_service.py`) -/

/-- A product embedding vector. -/
abbrev Vec := List ℚ

/-- The in-memory state of `RecommendationService` after
`_load_or_create_vector_db`: the insertion-ordered dict
`product_embeddings : {product_id: vector}` and the faiss index.
`index = none` embeds `self.index = None` (empty catalog); otherwise the
index is the search oracle: `search k` is the `(scores, indices)` row pair
of `index.search(vec, k)`, flattened to (score, label) pairs, where the
label `none` is faiss's sentinel `-1` and `some i` an internal position. -/
structure RecState where
  productEmbeddings : List (Nat × Vec)
  index : Option (Nat → List (ℚ × Option Nat))

/-- The keys of `self.product_embeddings` in insertion order
(`list(self.product_embeddings.keys())`). -/
def RecState.embKeys (st : RecState) : List Nat :=
  st.productEmbeddings.map Prod.fst

/-- The result-assembly loop of `get_similar_products` over the search
results: skip the `-1` sentinel, resolve an in-range position through
`product_ids`, skip the query product itself, look the id up in the
`products` table, and emit the recommendation dict with reason
"Similar product". -/
def similarLoop (embKeys : List Nat) (products : List Product) (productId : Nat) :
    List (ℚ × Option Nat) → List RecItem
  | [] => []
  | (_, none) :: rest => similarLoop embKeys products productId rest
  | (score, some idx) :: rest =>
    if h : idx < embKeys.length then
      let similarId := embKeys.get ⟨idx, h⟩
      if similarId = productId then similarLoop embKeys products productId rest
      else
        match products.find? (fun p => p.id = similarId) with
        | none => similarLoop embKeys products productId rest
        | some p =>
          ⟨p.id, p.title, p.price, p.images.head?, score, "Similar product"⟩ ::
            similarLoop embKeys products productId rest
    else similarLoop embKeys products productId rest

/-- `get_similar_products(product_id, limit)`: empty when the product has
no stored embedding or the index is `None`; otherwise search the index for
`limit + 1` neighbours, assemble results with `similarLoop`, and truncate
to `limit`. -/
def get_similar_products (st : RecState) (products : List Product)
    (productId limit : Nat) : List RecItem :=
  match st.index with
  | none => []
  | some search =>
    if st.productEmbeddings.any (fun e => e.1 = productId) then
      (similarLoop st.embKeys products productId (search (limit + 1))).take limit
    else []

/-- The purchase-history query of `get_user_recommendations`:
`Product.id` joined through `OrderItem` and `Order`, filtered on the buyer
and on the qualifying order statuses.  One id per matching
(product, order item, order) row, so repeat purchases repeat ids. -/
def purchasedProductIds (products : List Product) (items : List OrderItem)
    (orders : List Order) (userId : Nat) : List Nat :=
  (items.filter (fun it =>
    (products.any (fun p => p.id = it.productId)) &&
    (orders.any (fun o =>
      o.id = it.orderId && o.buyerId = userId && o.status ∈ qualifyingStatuses)))).map
    (·.productId)

/-- The dedup loop shared by `get_user_recommendations` and
`get_personalized_recommendations`: `seen` starts from the excluded ids,
each entry is kept only if its `product_id` is unseen, first occurrence
(and therefore its `reason`) wins. -/
def dedupExcluding (seen : List Nat) : List RecItem → List RecItem
  | [] => []
  | r :: rs =>
    if r.productId ∈ seen then dedupExcluding seen rs
    else r :: dedupExcluding (r.productId :: seen) rs

/-- Sort key of `get_popular_products`:
`order_by(desc(sales_count), desc(rating))`. -/
def popularLE (a b : Product) : Bool :=
  decide (b.salesCount < a.salesCount ∨ (a.salesCount = b.salesCount ∧ b.rating ≤ a.rating))

/-- Sort key of `get_category_recommendations`:
`order_by(desc(rating), desc(sales_count))`. -/
def categoryLE (a b : Product) : Bool :=
  decide (b.rating < a.rating ∨ (a.rating = b.rating ∧ b.salesCount ≤ a.salesCount))

/-- Sort key of `get_new_arrivals`: `order_by(desc(created_at))`. -/
def newestLE (a b : Product) : Bool :=
  decide (b.createdAt ≤ a.createdAt)

/-- `get_popular_products(limit)`: active products ordered by sales count
then rating, both descending, truncated to `limit`; score is the sales
count, reason "Popular product". -/
def get_popular_products (products : List Product) (limit : Nat) : List RecItem :=
  (((products.filter (fun p => p.status = "active")).mergeSort popularLE).take limit).map
    (fun p => ⟨p.id, p.title, p.price, p.images.head?, (p.salesCount : ℚ), "Popular product"⟩)

/-- `get_category_recommendations(category_id, limit)`: active products of
the category ordered by rating then sales count, both descending; score is
the rating, reason "Top rated in category". -/
def get_category_recommendations (products : List Product)
    (categoryId limit : Nat) : List RecItem :=
  (((products.filter (fun p => p.categoryId = categoryId && p.status = "active")).mergeSort
      categoryLE).take limit).map
    (fun p => ⟨p.id, p.title, p.price, p.images.head?, p.rating, "Top rated in category"⟩)

/-- `get_new_arrivals(limit, category_id)`: active products, optionally
filtered to a truthy category id, newest first; score is the constant
`1.0`, reason "New arrival". -/
def get_new_arrivals (products : List Product) (limit : Nat)
    (categoryId : Option Nat) : List RecItem :=
  let base := products.filter (fun p => p.status = "active")
  let filtered :=
    if pyTruthy categoryId then
      base.filter (fun p => some p.categoryId = categoryId)
    else base
  ((filtered.mergeSort newestLE).take limit).map
    (fun p => ⟨p.id, p.title, p.price, p.images.head?, 1, "New arrival"⟩)

/-- The joined rows of the trending query before grouping: one
(product, quantity) pair per order item whose order is inside the trailing
window with a qualifying status, whose product is active and, when a
truthy category id is supplied, in that category. -/
def trendingRows (products : List Product) (items : List OrderItem)
    (orders : List Order) (weekAgo : Int) (categoryId : Option Nat) :
    List (Product × Nat) :=
  items.foldr
    (fun it acc =>
      match products.find? (fun p => p.id = it.productId),
        orders.find? (fun o => o.id = it.orderId) with
      | some p, some o =>
        if o.createdAt ≥ weekAgo && o.status ∈ qualifyingStatuses &&
            p.status = "active" &&
            (!pyTruthy categoryId || some p.categoryId = categoryId) then
          (p, it.quantity) :: acc
        else acc
      | _, _ => acc)
    []

/-- First-occurrence deduplication of a list of ids (the distinct grouping
keys of a SQL `GROUP BY`, in row order). -/
def dedupIds : List Nat → List Nat
  | [] => []
  | i :: is => if i ∈ dedupIds is then dedupIds is else i :: dedupIds is

/-- `group_by(Product.id)` with `sum(quantity)`: one (product, summed
quantity) row per distinct product id of the joined rows. -/
def groupTrending (rows : List (Product × Nat)) : List (Product × Nat) :=
  (dedupIds (rows.map (fun r => r.1.id)).reverse).reverse.filterMap
    (fun i =>
      match rows.find? (fun r => r.1.id = i) with
      | some r =>
        some (r.1, ((rows.filter (fun s => s.1.id = i)).map Prod.snd).sum)
      | none => none)

/-- Sort key of `get_trending_products`: `order_by(desc('recent_sales'))`. -/
def trendingLE (a b : Product × Nat) : Bool :=
  decide (b.2 ≤ a.2)

/-- `get_trending_products(limit, category_id)`: group the qualifying
order items of the trailing 7-day window by product, sum quantities, order
by that sum descending, truncate; score is the summed quantity, reason
"Trending product". -/
def get_trending_products (products : List Product) (items : List OrderItem)
    (orders : List Order) (weekAgo : Int) (limit : Nat)
    (categoryId : Option Nat) : List RecItem :=
  (((groupTrending (trendingRows products items orders weekAgo categoryId)).mergeSort
      trendingLE).take limit).map
    (fun r => ⟨r.1.id, r.1.title, r.1.price, r.1.images.head?, (r.2 : ℚ), "Trending product"⟩)

/-- `get_user_recommendations(user_id, limit)`: with no qualifying
purchase history, delegate to `get_popular_products(limit)`; otherwise
collect 5 similar items per purchased product that has an embedding,
filter out purchased ids and duplicates (first occurrence wins), truncate
to `limit`. -/
def get_user_recommendations (st : RecState) (products : List Product)
    (items : List OrderItem) (orders : List Order) (userId limit : Nat) :
    List RecItem :=
  let purchasedIds := purchasedProductIds products items orders userId
  if purchasedIds = [] then get_popular_products products limit
  else
    let similarProducts := purchasedIds.foldr
      (fun pid acc =>
        (if st.productEmbeddings.any (fun e => e.1 = pid) then
          get_similar_products st products pid 5
        else []) ++ acc)
      []
    (dedupExcluding purchasedIds similarProducts).take limit

/-- `get_personalized_recommendations(user_id, limit)`: user-history
recommendations with `limit // 2`, then popular with `limit // 2`,
concatenated, deduplicated first-occurrence-wins, truncated to `limit`. -/
def get_personalized_recommendations (st : RecState) (products : List Product)
    (items : List OrderItem) (orders : List Order) (userId limit : Nat) :
    List RecItem :=
  let userRecs := get_user_recommendations st products items orders userId (limit / 2)
  let popularRecs := get_popular_products products (limit / 2)
  (dedupExcluding [] (userRecs ++ popularRecs)).take limit

/-! ## Index build (`_build_vector_db`) -/

/-- The embedding text of a product in `_build_vector_db`: title, then
description when truthy (non-empty), then the tags joined by spaces when
truthy (non-empty list). -/
def productText (p : Product) : String :=
  p.title ++
    (match p.description with
     | some d => if d ≠ "" then " " ++ d else ""
     | none => "") ++
    (match p.tags with
     | some ts => if ts ≠ [] then " " ++ String.intercalate " " ts else ""
     | none => "")

/-- A Python dict built by a comprehension over key/value pairs: a later
duplicate key overwrites the value in place (keeping the first-insertion
position); fresh keys append. -/
def dictInsert (d : List (Nat × Vec)) (k : Nat) (v : Vec) : List (Nat × Vec) :=
  if d.any (fun e => e.1 = k) then d.map (fun e => if e.1 = k then (e.1, v) else e)
  else d ++ [(k, v)]

/-- `{pid: emb for pid, emb in zip(product_ids, embeddings)}`. -/
def dictOfZip (pairs : List (Nat × Vec)) : List (Nat × Vec) :=
  pairs.foldl (fun d e => dictInsert d e.1 e.2) []

/-- `_build_vector_db()`: filter the catalog to active products; when none
remain, leave an empty embedding dict and `index = None`.  Otherwise build
the text of every product, encode all texts (`encode` is the opaque
sentence-transformer), L2-normalise in place (`normalize` is opaque), add
the normalised vectors to a fresh flat index, and rebuild the embedding
dict from the zipped (id, normalised vector) pairs.  Returns the fresh
index storage (the vectors in insertion order) and the fresh dict — both
replaced together, nothing mutated incrementally. -/
def _build_vector_db (encode : List String → List Vec) (normalize : Vec → Vec)
    (products : List Product) : Option (List Vec) × List (Nat × Vec) :=
  let actives := products.filter (fun p => p.status = "active")
  if actives = [] then (none, [])
  else
    let productTexts := actives.map productText
    let productIds := actives.map (·.id)
    let embeddings := (encode productTexts).map normalize
    (some embeddings, dictOfZip (productIds.zip embeddings))

/-! ## Artifact loaders (C5) -/

/-- The outcome-relevant filesystem state for `_load_or_create_vector_db`:
whether each artifact file exists, and whether deserialising it succeeds
(`pickle.load` / `faiss.read_index` on a corrupt file raises). -/
structure VectorArtifactFS where
  vectorFileExists : Bool
  indexFileExists : Bool
  vectorFileReadable : Bool
  indexFileReadable : Bool
  deriving Repr, DecidableEq

/-- Deserialising one artifact: `ok` on a readable file, a raised
exception otherwise. -/
def readArtifact (readable : Bool) : Except Unit Unit :=
  if readable then .ok () else .error ()

/-- `_load_or_create_vector_db()`: when BOTH artifact files exist, load
them in sequence (a corrupt file raises out of the method — there is no
try/except); otherwise fall back to `_build_vector_db`.  The returned
flag is `true` when the index was rebuilt from the catalog and `false`
when it was loaded from disk; `Except.error` is a propagated exception. -/
def _load_or_create_vector_db (fs : VectorArtifactFS) : Except Unit Bool :=
  if fs.vectorFileExists && fs.indexFileExists then do
    _ ← readArtifact fs.vectorFileReadable
    _ ← readArtifact fs.indexFileReadable
    pure false
  else
    pure true

/-- The filesystem state for `_load_classification_models`. -/
structure ClassifierArtifactFS where
  categoryFileExists : Bool
  categoryFileReadable : Bool
  tagFileExists : Bool
  tagFileReadable : Bool
  deriving Repr, DecidableEq

/-- One branch of `_load_classification_models`: a present file is
unpickled (raising when corrupt, with no try/except), an absent file
yields `None` for the model. -/
def loadModelFile (fileExists readable : Bool) : Except Unit (Option Unit) :=
  if fileExists then
    match readArtifact readable with
    | .ok _ => .ok (some ())
    | .error e => .error e
  else .ok none

/-- `_load_classification_models()`: load the category model, then the tag
model, then rebuild (`_build_classification_models`) when either is
missing.  The returned flag is `true` when a rebuild was triggered;
`Except.error` is a propagated exception from unpickling a corrupt file. -/
def _load_classification_models (fs : ClassifierArtifactFS) : Except Unit Bool := do
  let categoryClassifier ← loadModelFile fs.categoryFileExists fs.categoryFileReadable
  let tagClassifier ← loadModelFile fs.tagFileExists fs.tagFileReadable
  pure (categoryClassifier = none || tagClassifier = none)

/-! ## Auxiliary definitions used by the theorems -/

/-- The product ids a search-result list resolves to through the
embedding-map key list, in index-reported order: sentinel labels and
out-of-range positions resolve to nothing. -/
def resolvedIds (embKeys : List Nat) (results : List (ℚ × Option Nat)) : List Nat :=
  results.filterMap (fun sc =>
    match sc.2 with
    | some i => embKeys.get? i
    | none => none)

/-- The concrete scenario of the spec: a category whose active priced
products cost 10, 20, 30, 40, 50. -/
def scenarioProducts : List Product :=
  [{ id := 1, title := "a", categoryId := 1, price := 10, status := "active" },
   { id := 2, title := "b", categoryId := 1, price := 20, status := "active" },
   { id := 3, title := "c", categoryId := 1, price := 30, status := "active" },
   { id := 4, title := "d", categoryId := 1, price := 40, status := "active" },
   { id := 5, title := "e", categoryId := 1, price := 50, status := "active" }]

/-- A category whose single active product has a negative price (nothing
in the repository validates price nonnegativity: the backend schema
declares `price: Decimal` with no bound and the column is a plain
`DECIMAL(10, 2)`). -/
def negativePriceProducts : List Product :=
  [{ id := 9, title := "n", categoryId := 1, price := -10, status := "active" }]

/-- An inactive product carrying tags, for probing the status filter of
the category-tag sampler. -/
def inactiveTaggedProducts : List Product :=
  [{ id := 7, title := "t", categoryId := 3, price := 1, status := "inactive",
     tags := some ["vintage"] }]

/-- A product carrying eleven distinct tags, so that the ten-most-frequent
truncation must exclude one of them. -/
def manyTagsProducts : List Product :=
  [{ id := 8, title := "m", categoryId := 5, price := 1, status := "draft",
     tags := some ["t01", "t02", "t03", "t04", "t05", "t06", "t07", "t08", "t09",
       "t10", "t11"] }]

/-! ## Shared lemmas -/

theorem embAny_eq_false (st : RecState) (pid : Nat) (h : pid ∉ st.embKeys) :
    st.productEmbeddings.any (fun e => e.1 = pid) = false := by
  rw [List.any_eq_false]
  intro e he hmem
  exact h (List.mem_map.2 ⟨e, he, by simpa using hmem⟩)

theorem similar_foldr_nil (st : RecState) (products : List Product) (l : List Nat)
    (h : ∀ pid ∈ l, pid ∉ st.embKeys) :
    l.foldr
      (fun pid acc =>
        (if st.productEmbeddings.any (fun e => e.1 = pid) then
          get_similar_products st products pid 5
        else []) ++ acc)
      [] = [] := by
  induction l with
  | nil => rfl
  | cons a as ih =>
    simp only [List.foldr_cons]
    rw [embAny_eq_false st a (h a (List.mem_cons_self a as)),
      ih (fun pid hp => h pid (List.mem_cons_of_mem a hp))]
    rfl

theorem embAny_eq_true (st : RecState) (pid : Nat) (h : pid ∈ st.embKeys) :
    st.productEmbeddings.any (fun e => e.1 = pid) = true := by
  rcases List.mem_map.1 h with ⟨e, he, hfst⟩
  exact List.any_eq_true.2 ⟨e, he, by simpa using hfst⟩

theorem resolvedIds_cons_none (embKeys : List Nat) (s : ℚ)
    (tl : List (ℚ × Option Nat)) :
    resolvedIds embKeys ((s, none) :: tl) = resolvedIds embKeys tl := rfl

theorem resolvedIds_cons_some_lt (embKeys : List Nat) (s : ℚ) (idx : Nat)
    (tl : List (ℚ × Option Nat)) (h : idx < embKeys.length) :
    resolvedIds embKeys ((s, some idx) :: tl) =
      embKeys.get ⟨idx, h⟩ :: resolvedIds embKeys tl := by
  unfold resolvedIds
  rw [List.filterMap_cons]
  dsimp only
  rw [List.get?_eq_get h]

theorem resolvedIds_cons_some_ge (embKeys : List Nat) (s : ℚ) (idx : Nat)
    (tl : List (ℚ × Option Nat)) (h : ¬idx < embKeys.length) :
    resolvedIds embKeys ((s, some idx) :: tl) = resolvedIds embKeys tl := by
  unfold resolvedIds
  rw [List.filterMap_cons]
  dsimp only
  rw [List.get?_eq_none.2 (Nat.le_of_not_lt h)]

theorem similarLoop_ne_self (embKeys : List Nat) (products : List Product)
    (productId : Nat) (l : List (ℚ × Option Nat)) :
    ∀ r ∈ similarLoop embKeys products productId l, r.productId ≠ productId := by
  induction l with
  | nil => intro r hr; simp [similarLoop] at hr
  | cons hd tl ih =>
    rcases hd with ⟨score, oidx⟩
    cases oidx with
    | none =>
      intro r hr
      exact ih r (by simpa [similarLoop] using hr)
    | some idx =>
      intro r hr
      simp only [similarLoop] at hr
      split at hr
      · split at hr
        · exact ih r hr
        · rename_i h hne
          split at hr
          · exact ih r hr
          · rename_i p hfind
            rcases List.mem_cons.1 hr with hr | hr
            · have hid : p.id = embKeys.get ⟨idx, h⟩ := by
                simpa using List.find?_some hfind
              rw [hr]
              simpa [hid] using hne
            · exact ih r hr
      · exact ih r hr

theorem similarLoop_sublist (embKeys : List Nat) (products : List Product)
    (productId : Nat) (l : List (ℚ × Option Nat)) :
    ((similarLoop embKeys products productId l).map (·.productId)).Sublist
      (resolvedIds embKeys l) := by
  induction l with
  | nil => simp [similarLoop, resolvedIds]
  | cons hd tl ih =>
    rcases hd with ⟨score, oidx⟩
    cases oidx with
    | none =>
      rw [resolvedIds_cons_none]
      simpa [similarLoop] using ih
    | some idx =>
      by_cases h : idx < embKeys.length
      · rw [resolvedIds_cons_some_lt embKeys score idx tl h]
        simp only [similarLoop]
        rw [dif_pos h]
        split
        · exact ih.cons _
        · split
          · exact ih.cons _
          · rename_i hne p hfind
            have hid : p.id = embKeys.get ⟨idx, h⟩ := by
              simpa using List.find?_some hfind
            simpa [hid] using ih.cons₂ (embKeys.get ⟨idx, h⟩)
      · rw [resolvedIds_cons_some_ge embKeys score idx tl h]
        simp only [similarLoop]
        rw [dif_neg h]
        exact ih

theorem resolvedIds_nodup (embKeys : List Nat) (l : List (ℚ × Option Nat))
    (hkeys : embKeys.Nodup) (hidx : (l.filterMap Prod.snd).Nodup) :
    (resolvedIds embKeys l).Nodup := by
  have heq : resolvedIds embKeys l = (l.filterMap Prod.snd).filterMap embKeys.get? := by
    rw [List.filterMap_filterMap]
    unfold resolvedIds
    congr 1
    funext sc
    cases sc.2 <;> rfl
  rw [heq]
  refine List.Nodup.filterMap ?_ hidx
  intro i j k hik hjk
  have hi : embKeys.get? i = some k := hik
  have hj : embKeys.get? j = some k := hjk
  have hilt : i < embKeys.length := List.get?_eq_some.1 hi |>.choose
  exact List.get?_inj hilt hkeys (hi.trans hj.symm)

theorem foldl_dictInsert_eq_append (pairs acc : List (Nat × Vec))
    (h : (((acc ++ pairs).map Prod.fst)).Nodup) :
    pairs.foldl (fun d e => dictInsert d e.1 e.2) acc = acc ++ pairs := by
  induction pairs generalizing acc with
  | nil => simp
  | cons e rest ih =>
    have hdisj : e.1 ∉ acc.map Prod.fst := by
      intro hmem
      have h' := h
      rw [List.map_append, List.nodup_append] at h'
      exact h'.2.2 hmem (by simp)
    have hnotin : acc.any (fun x => x.1 = e.1) = false := by
      rw [List.any_eq_false]
      intro x hx hx1
      exact hdisj (List.mem_map.2 ⟨x, hx, by simpa using hx1⟩)
    rw [List.foldl_cons]
    have hins : dictInsert acc e.1 e.2 = acc ++ [e] := by
      unfold dictInsert
      rw [hnotin]
      simp
    rw [hins, ih (acc ++ [e]) (by simpa using h)]
    simp

theorem dictOfZip_eq_self (pairs : List (Nat × Vec))
    (h : ((pairs.map Prod.fst)).Nodup) : dictOfZip pairs = pairs := by
  unfold dictOfZip
  simpa using foldl_dictInsert_eq_append pairs [] (by simpa using h)

theorem foldl_min_le_init (qs : List ℚ) : ∀ q : ℚ, qs.foldl min q ≤ q := by
  induction qs with
  | nil => intro q; simp
  | cons a as ih =>
    intro q
    calc (a :: as).foldl min q = as.foldl min (min q a) := by simp
    _ ≤ min q a := ih (min q a)
    _ ≤ q := min_le_left q a

theorem foldl_min_le_mem (qs : List ℚ) : ∀ (q x : ℚ), x ∈ qs → qs.foldl min q ≤ x := by
  induction qs with
  | nil => intro q x hx; simp at hx
  | cons a as ih =>
    intro q x hx
    rcases List.mem_cons.1 hx with hx | hx
    · subst hx
      calc (x :: as).foldl min q = as.foldl min (min q x) := by simp
      _ ≤ min q x := foldl_min_le_init as (min q x)
      _ ≤ x := min_le_right q x
    · exact ih (min q a) x hx

theorem init_le_foldl_max (qs : List ℚ) : ∀ q : ℚ, q ≤ qs.foldl max q := by
  induction qs with
  | nil => intro q; simp
  | cons a as ih =>
    intro q
    calc q ≤ max q a := le_max_left q a
    _ ≤ as.foldl max (max q a) := ih (max q a)
    _ = (a :: as).foldl max q := by simp

theorem mem_le_foldl_max (qs : List ℚ) : ∀ (q x : ℚ), x ∈ qs → x ≤ qs.foldl max q := by
  induction qs with
  | nil => intro q x hx; simp at hx
  | cons a as ih =>
    intro q x hx
    rcases List.mem_cons.1 hx with hx | hx
    · subst hx
      calc x ≤ max q x := le_max_right q x
      _ ≤ as.foldl max (max q x) := init_le_foldl_max as (max q x)
      _ = (x :: as).foldl max q := by simp
    · exact ih (max q a) x hx

theorem mul_length_le_sum (l : List ℚ) (m : ℚ) (h : ∀ x ∈ l, m ≤ x) :
    m * (l.length : ℚ) ≤ l.sum := by
  induction l with
  | nil => simp
  | cons a as ih =>
    have ha : m ≤ a := h a (List.mem_cons_self a as)
    have has := ih (fun x hx => h x (List.mem_cons_of_mem a hx))
    rw [List.sum_cons, List.length_cons]
    push_cast
    calc m * ((as.length : ℚ) + 1) = m + m * (as.length : ℚ) := by ring
    _ ≤ a + as.sum := add_le_add ha has

theorem sum_le_mul_length (l : List ℚ) (M : ℚ) (h : ∀ x ∈ l, x ≤ M) :
    l.sum ≤ M * (l.length : ℚ) := by
  induction l with
  | nil => simp
  | cons a as ih =>
    have ha : a ≤ M := h a (List.mem_cons_self a as)
    have has := ih (fun x hx => h x (List.mem_cons_of_mem a hx))
    rw [List.sum_cons, List.length_cons]
    push_cast
    calc a + as.sum ≤ M + M * (as.length : ℚ) := add_le_add ha has
    _ = M * ((as.length : ℚ) + 1) := by ring

theorem dedupExcluding_not_mem (rs : List RecItem) :
    ∀ seen, ∀ r ∈ dedupExcluding seen rs, r.productId ∉ seen := by
  induction rs with
  | nil => intro seen r hr; simp [dedupExcluding] at hr
  | cons x xs ih =>
    intro seen r hr
    rw [dedupExcluding] at hr
    split at hr
    · exact ih seen r hr
    · rename_i hx
      rcases List.mem_cons.1 hr with h | h
      · subst h; exact hx
      · intro hmem
        exact ih (x.productId :: seen) r h (List.mem_cons_of_mem _ hmem)

theorem dedupExcluding_nodup (rs : List RecItem) :
    ∀ seen, ((dedupExcluding seen rs).map (·.productId)).Nodup := by
  induction rs with
  | nil => intro seen; simp [dedupExcluding]
  | cons x xs ih =>
    intro seen
    rw [dedupExcluding]
    split
    · exact ih seen
    · rw [List.map_cons]
      refine List.nodup_cons.2 ⟨?_, ih _⟩
      intro hmem
      rcases List.mem_map.1 hmem with ⟨r, hr, hid⟩
      exact dedupExcluding_not_mem xs (x.productId :: seen) r hr
        (hid ▸ List.mem_cons_self _ _)

theorem dedupExcluding_find_first (rs : List RecItem) :
    ∀ seen, ∀ r ∈ dedupExcluding seen rs,
      rs.find? (fun x => x.productId = r.productId) = some r := by
  induction rs with
  | nil => intro seen r hr; simp [dedupExcluding] at hr
  | cons x xs ih =>
    intro seen r hr
    rw [dedupExcluding] at hr
    split at hr
    · rename_i hxseen
      have hrnot : r.productId ∉ seen := dedupExcluding_not_mem xs seen r hr
      refine (List.find?_cons_of_neg xs ?_).trans (ih seen r hr)
      simp only [decide_eq_true_eq]
      intro he
      exact hrnot (he ▸ hxseen)
    · rcases List.mem_cons.1 hr with h | h
      · subst h
        exact List.find?_cons_of_pos _ (by simp)
      · have hrnot : r.productId ∉ x.productId :: seen :=
          dedupExcluding_not_mem xs _ r h
        refine (List.find?_cons_of_neg xs ?_).trans (ih _ r h)
        simp only [decide_eq_true_eq]
        intro he
        exact hrnot (he ▸ List.mem_cons_self _ _)

theorem nodup_map_take {α β : Type} (g : α → β) (n : Nat) (l : List α)
    (h : (l.map g).Nodup) : ((l.take n).map g).Nodup := by
  rw [List.map_take]
  exact (List.take_sublist n _).nodup h

theorem nodup_map_take_mergeSort {α β : Type} (g : α → β) (le : α → α → Bool)
    (n : Nat) (l : List α) (h : (l.map g).Nodup) :
    (((l.mergeSort le).take n).map g).Nodup := by
  refine nodup_map_take g n _ ?_
  exact ((List.mergeSort_perm l le).map g).symm.nodup h

theorem filter_map_id_nodup (products : List Product) (pred : Product → Bool)
    (h : (products.map (·.id)).Nodup) :
    ((products.filter pred).map (·.id)).Nodup :=
  (((List.filter_sublist products).map (·.id))).nodup h

theorem get_popular_products_nodup (products : List Product) (limit : Nat)
    (h : (products.map (·.id)).Nodup) :
    ((get_popular_products products limit).map (·.productId)).Nodup := by
  unfold get_popular_products
  rw [List.map_map]
  exact nodup_map_take_mergeSort _ popularLE limit _
    (filter_map_id_nodup products _ h)

theorem get_category_recommendations_nodup (products : List Product)
    (categoryId limit : Nat) (h : (products.map (·.id)).Nodup) :
    ((get_category_recommendations products categoryId limit).map (·.productId)).Nodup := by
  unfold get_category_recommendations
  rw [List.map_map]
  exact nodup_map_take_mergeSort _ categoryLE limit _
    (filter_map_id_nodup products _ h)

theorem get_new_arrivals_nodup (products : List Product) (limit : Nat)
    (categoryId : Option Nat) (h : (products.map (·.id)).Nodup) :
    ((get_new_arrivals products limit categoryId).map (·.productId)).Nodup := by
  unfold get_new_arrivals
  rw [List.map_map]
  split
  · exact nodup_map_take_mergeSort _ newestLE limit _
      (filter_map_id_nodup _ _ (filter_map_id_nodup products _ h))
  · exact nodup_map_take_mergeSort _ newestLE limit _
      (filter_map_id_nodup products _ h)

theorem dedupIds_nodup : ∀ l : List Nat, (dedupIds l).Nodup := by
  intro l
  induction l with
  | nil => simp [dedupIds]
  | cons i is ih =>
    rw [dedupIds]
    split
    · exact ih
    · exact List.nodup_cons.2 ⟨by assumption, ih⟩

theorem nodup_map_filterMap_key {γ : Type} (g : Nat → Option γ) (key : γ → Nat)
    (hg : ∀ i v, g i = some v → key v = i) :
    ∀ keys : List Nat, keys.Nodup → ((keys.filterMap g).map key).Nodup := by
  intro keys
  induction keys with
  | nil => simp
  | cons i rest ih =>
    intro h
    rw [List.filterMap_cons]
    cases hgi : g i with
    | none => exact ih (List.nodup_cons.1 h).2
    | some v =>
      rw [List.map_cons]
      refine List.nodup_cons.2 ⟨?_, ih (List.nodup_cons.1 h).2⟩
      intro hmem
      rcases List.mem_map.1 hmem with ⟨w, hw, hkw⟩
      rcases List.mem_filterMap.1 hw with ⟨j, hj, hgj⟩
      have : key w = j := hg j w hgj
      have hij : key v = i := hg i v hgi
      rw [hkw, hij] at this
      exact (List.nodup_cons.1 h).1 (this ▸ hj)

theorem groupTrending_ids_nodup (rows : List (Product × Nat)) :
    ((groupTrending rows).map (fun r => r.1.id)).Nodup := by
  unfold groupTrending
  refine nodup_map_filterMap_key _ _ ?_ _ ?_
  · intro i v hv
    split at hv
    · rename_i r hfind
      have := List.find?_some hfind
      simp only [decide_eq_true_eq] at this
      cases Option.some_inj.1 hv
      exact this
    · exact absurd hv (by simp)
  · exact List.nodup_reverse.2 (dedupIds_nodup _)

theorem get_trending_products_nodup (products : List Product)
    (items : List OrderItem) (orders : List Order) (weekAgo : Int)
    (limit : Nat) (categoryId : Option Nat) :
    ((get_trending_products products items orders weekAgo limit categoryId).map
      (·.productId)).Nodup := by
  unfold get_trending_products
  rw [List.map_map]
  exact nodup_map_take_mergeSort _ trendingLE limit _ (groupTrending_ids_nodup _)

theorem get_similar_products_nodup (st : RecState) (products : List Product)
    (productId limit : Nat) (hkeys : st.embKeys.Nodup)
    (hsearch : ∀ s n, st.index = some s → ((s n).filterMap Prod.snd).Nodup) :
    ((get_similar_products st products productId limit).map (·.productId)).Nodup := by
  unfold get_similar_products
  cases hidx : st.index with
  | none => simp
  | some s =>
    dsimp only
    split
    · refine List.Sublist.nodup ?_ (resolvedIds_nodup st.embKeys (s (limit + 1)) hkeys
        (hsearch s (limit + 1) hidx))
      rw [List.map_take]
      exact (List.take_sublist _ _).trans (similarLoop_sublist _ products productId _)
    · simp

theorem get_user_recommendations_nodup (st : RecState) (products : List Product)
    (items : List OrderItem) (orders : List Order) (userId limit : Nat)
    (h : (products.map (·.id)).Nodup) :
    ((get_user_recommendations st products items orders userId limit).map
      (·.productId)).Nodup := by
  by_cases hc : purchasedProductIds products items orders userId = []
  · simp only [get_user_recommendations, if_pos hc]
    exact get_popular_products_nodup products limit h
  · simp only [get_user_recommendations, if_neg hc]
    exact nodup_map_take _ limit _ (dedupExcluding_nodup _ _)

theorem get_personalized_recommendations_nodup (st : RecState)
    (products : List Product) (items : List OrderItem) (orders : List Order)
    (userId limit : Nat) :
    ((get_personalized_recommendations st products items orders userId limit).map
      (·.productId)).Nodup := by
  unfold get_personalized_recommendations
  exact nodup_map_take _ limit _ (dedupExcluding_nodup _ _)

theorem countOccsStep_inv (acc : List (String × Nat)) (pre : List String) (t : String)
    (h1 : ∀ p ∈ acc, p.2 = pre.count p.1)
    (h2 : ∀ u : String, u ∈ acc.map Prod.fst ↔ u ∈ pre)
    (h3 : (acc.map Prod.fst).Nodup) :
    (∀ p ∈ countOccsStep acc t, p.2 = (pre ++ [t]).count p.1) ∧
    (∀ u : String, u ∈ (countOccsStep acc t).map Prod.fst ↔ u ∈ pre ++ [t]) ∧
    ((countOccsStep acc t).map Prod.fst).Nodup := by
  unfold countOccsStep
  by_cases hmem : acc.any (fun p => p.1 = t) = true
  · rw [if_pos hmem]
    have htmem : t ∈ acc.map Prod.fst := by
      rcases List.any_eq_true.1 hmem with ⟨p, hp, hpt⟩
      simp only [decide_eq_true_eq] at hpt
      exact List.mem_map.2 ⟨p, hp, hpt⟩
    have hkeys : (acc.map (fun p => if p.1 = t then (p.1, p.2 + 1) else p)).map Prod.fst =
        acc.map Prod.fst := by
      rw [List.map_map]
      refine List.map_congr_left ?_
      intro p hp
      by_cases hpt : p.1 = t <;> simp [hpt]
    refine ⟨?_, ?_, ?_⟩
    · intro pq hpq
      rcases List.mem_map.1 hpq with ⟨p, hp, hup⟩
      by_cases hpt : p.1 = t
      · rw [← hup]
        simp only [if_pos hpt]
        rw [List.count_append, ← h1 p hp]
        simp [hpt]
      · rw [← hup]
        simp only [if_neg hpt]
        rw [List.count_append, ← h1 p hp]
        have : [t].count p.1 = 0 := by
          simp [List.count_singleton]
          exact fun he => hpt he.symm
        rw [this]
        simp
    · intro u
      rw [hkeys, h2 u, List.mem_append]
      constructor
      · exact fun h => Or.inl h
      · rintro (h | h)
        · exact h
        · rw [List.mem_singleton] at h
          subst h
          exact (h2 u).1 htmem
    · rw [hkeys]; exact h3
  · rw [if_neg hmem]
    have htnot : t ∉ acc.map Prod.fst := by
      intro hmem'
      rcases List.mem_map.1 hmem' with ⟨p, hp, hpt⟩
      exact hmem (List.any_eq_true.2 ⟨p, hp, by simp [hpt]⟩)
    have htpre : t ∉ pre := fun hp => htnot ((h2 t).2 hp)
    refine ⟨?_, ?_, ?_⟩
    · intro p hp
      rcases List.mem_append.1 hp with hp | hp
      · have hne : p.1 ≠ t := fun he => htnot (List.mem_map.2 ⟨p, hp, he⟩)
        rw [List.count_append, ← h1 p hp]
        have : [t].count p.1 = 0 := by
          simp [List.count_singleton]
          exact fun he => hne he.symm
        rw [this]
        simp
      · rw [List.mem_singleton] at hp
        subst hp
        rw [List.count_append, List.count_eq_zero.2 htpre]
        simp
    · intro u
      rw [List.map_append, List.mem_append, List.mem_append, h2 u]
      simp
    · rw [List.map_append, List.nodup_append]
      exact ⟨h3, List.nodup_singleton t, by simpa using htnot⟩

theorem countOccs_inv (l : List String) :
    ∀ (acc : List (String × Nat)) (pre : List String),
      (∀ p ∈ acc, p.2 = pre.count p.1) →
      (∀ u : String, u ∈ acc.map Prod.fst ↔ u ∈ pre) →
      (acc.map Prod.fst).Nodup →
      (∀ p ∈ l.foldl countOccsStep acc, p.2 = (pre ++ l).count p.1) ∧
      (∀ u : String, u ∈ (l.foldl countOccsStep acc).map Prod.fst ↔ u ∈ pre ++ l) ∧
      ((l.foldl countOccsStep acc).map Prod.fst).Nodup := by
  induction l with
  | nil =>
    intro acc pre h1 h2 h3
    rw [List.foldl_nil, List.append_nil]
    exact ⟨h1, h2, h3⟩
  | cons t ts ih =>
    intro acc pre h1 h2 h3
    obtain ⟨s1, s2, s3⟩ := countOccsStep_inv acc pre t h1 h2 h3
    have hmain := ih (countOccsStep acc t) (pre ++ [t]) s1 s2 s3
    rw [List.foldl_cons]
    rw [List.append_assoc, List.singleton_append] at hmain
    exact hmain

theorem countOccs_count (l : List String) : ∀ p ∈ countOccs l, p.2 = l.count p.1 := by
  have h := (countOccs_inv l [] [] (by simp) (by simp) (by simp)).1
  rw [List.nil_append] at h
  exact h

theorem countOccs_keys_iff (l : List String) :
    ∀ u : String, u ∈ (countOccs l).map Prod.fst ↔ u ∈ l := by
  have h := (countOccs_inv l [] [] (by simp) (by simp) (by simp)).2.1
  rw [List.nil_append] at h
  exact h

theorem countOccs_keys_nodup (l : List String) : ((countOccs l).map Prod.fst).Nodup := by
  have h := (countOccs_inv l [] [] (by simp) (by simp) (by simp)).2.2
  exact h

theorem mostCommonKeys_length_le (n : Nat) (l : List String) :
    (mostCommonKeys n l).length ≤ n := by
  unfold mostCommonKeys
  rw [List.length_map]
  exact List.length_take_le n _

theorem mostCommonKeys_subset (n : Nat) (l : List String) :
    ∀ t ∈ mostCommonKeys n l, t ∈ l := by
  intro t ht
  unfold mostCommonKeys at ht
  rcases List.mem_map.1 ht with ⟨p, hp, hpt⟩
  have hp2 : p ∈ countOccs l :=
    (List.mergeSort_perm (countOccs l) _).subset (List.mem_of_mem_take hp)
  subst hpt
  exact (countOccs_keys_iff l p.1).1 (List.mem_map.2 ⟨p, hp2, rfl⟩)

theorem mostCommonKeys_most_frequent (n : Nat) (l : List String) :
    ∀ t ∈ mostCommonKeys n l, ∀ s ∈ l, s ∉ mostCommonKeys n l →
      l.count s ≤ l.count t := by
  intro t ht s hs hsnot
  unfold mostCommonKeys at ht hsnot
  rcases List.mem_map.1 ht with ⟨pt, hpt, hptt⟩
  have hptocc : pt ∈ countOccs l :=
    (List.mergeSort_perm (countOccs l) _).subset (List.mem_of_mem_take hpt)
  have hptcount : pt.2 = l.count t := by
    rw [← hptt]
    exact countOccs_count l pt hptocc
  have hskey : s ∈ (countOccs l).map Prod.fst := (countOccs_keys_iff l s).2 hs
  rcases List.mem_map.1 hskey with ⟨ps, hpsocc, hpss⟩
  have hpscount : ps.2 = l.count s := by
    rw [← hpss]
    exact countOccs_count l ps hpsocc
  have hpssorted : ps ∈ (countOccs l).mergeSort (fun a b => decide (b.2 ≤ a.2)) :=
    (List.mergeSort_perm (countOccs l) _).symm.subset hpsocc
  have hsplit := List.take_append_drop n
    ((countOccs l).mergeSort (fun a b => decide (b.2 ≤ a.2)))
  have hpsdrop : ps ∈ ((countOccs l).mergeSort (fun a b => decide (b.2 ≤ a.2))).drop n := by
    rcases List.mem_append.1 (by rw [hsplit]; exact hpssorted) with h | h
    · exact absurd (List.mem_map.2 ⟨ps, h, hpss⟩) hsnot
    · exact h
  have hpair : ((countOccs l).mergeSort (fun a b => decide (b.2 ≤ a.2))).Pairwise
      (fun a b => (decide (b.2 ≤ a.2)) = true) := by
    refine List.sorted_mergeSort ?_ ?_ (countOccs l)
    · intro a b c hab hbc
      simp only [decide_eq_true_eq] at hab hbc ⊢
      exact le_trans hbc hab
    · intro a b
      rcases le_total b.2 a.2 with h | h <;> simp [h]
  have hrel : (decide (ps.2 ≤ pt.2)) = true := by
    have hpair2 : (((countOccs l).mergeSort (fun a b => decide (b.2 ≤ a.2))).take n ++
        ((countOccs l).mergeSort (fun a b => decide (b.2 ≤ a.2))).drop n).Pairwise
        (fun a b => (decide (b.2 ≤ a.2)) = true) := by
      rw [hsplit]
      exact hpair
    exact (List.pairwise_append.1 hpair2).2.2 pt hpt ps hpsdrop
  simp only [decide_eq_true_eq] at hrel
  rw [← hpscount, ← hptcount]
  exact hrel

theorem flattenTags_map_of_tags_eq (g : Product → Product)
    (hg : ∀ p, (g p).tags = p.tags) (sample : List Product) :
    flattenTags (sample.map g) = flattenTags sample := by
  unfold flattenTags
  suffices h : ∀ acc, (sample.map g).foldl flattenStep acc = sample.foldl flattenStep acc by
    exact h []
  induction sample with
  | nil => intro acc; rfl
  | cons p ps ih =>
    intro acc
    rw [List.map_cons, List.foldl_cons, List.foldl_cons]
    have hstep : flattenStep acc (g p) = flattenStep acc p := by
      unfold flattenStep
      rw [hg p]
    rw [hstep]
    exact ih _

/-! ## Claim theorems -/

/-- C1: for a product `A` present in the built index, the similar-product
query never returns `A` itself: it requests `limit + 1` neighbours from
the index (the result depends on the index only through that request),
discards the query product while preserving index-reported order (the
returned ids form a sublist of the ids the search results resolve to, in
order), and returns at most `limit` results. -/
theorem getSimilarProducts_excludes_self (st : RecState) (products : List Product)
    (productId limit : Nat) (search : Nat → List (ℚ × Option Nat))
    (hidx : st.index = some search) (hmem : productId ∈ st.embKeys) :
    (∀ r ∈ get_similar_products st products productId limit, r.productId ≠ productId) ∧
    (get_similar_products st products productId limit).length ≤ limit ∧
    ((get_similar_products st products productId limit).map (·.productId)).Sublist
      (resolvedIds st.embKeys (search (limit + 1))) ∧
    (∀ search' : Nat → List (ℚ × Option Nat), search' (limit + 1) = search (limit + 1) →
      get_similar_products ⟨st.productEmbeddings, some search'⟩ products productId limit =
        get_similar_products st products productId limit) := by
  have hres : get_similar_products st products productId limit =
      (similarLoop st.embKeys products productId (search (limit + 1))).take limit := by
    unfold get_similar_products
    rw [hidx]
    dsimp only
    rw [if_pos (embAny_eq_true st productId hmem)]
  refine ⟨?_, ?_, ?_, ?_⟩
  · intro r hr
    rw [hres] at hr
    exact similarLoop_ne_self st.embKeys products productId (search (limit + 1)) r
      (List.mem_of_mem_take hr)
  · rw [hres]
    simpa using List.length_take_le limit _
  · rw [hres, List.map_take]
    exact ((List.take_sublist _ _).trans
      (similarLoop_sublist st.embKeys products productId (search (limit + 1))))
  · intro search' hsearch
    unfold get_similar_products
    rw [hidx]
    simp only [RecState.embKeys] at hsearch ⊢
    rw [hsearch]

/-- Witness for C1 at a concrete two-product index whose search output
lists the query product itself first. -/
theorem getSimilarProducts_excludes_self_witness :
    (∀ r ∈ get_similar_products
        ⟨[(1, [1]), (2, [1])], some (fun _ => [(1, some 0), ((9 : ℚ)/10, some 1)])⟩
        scenarioProducts 1 1,
      r.productId ≠ 1) ∧
    (get_similar_products
        ⟨[(1, [1]), (2, [1])], some (fun _ => [(1, some 0), ((9 : ℚ)/10, some 1)])⟩
        scenarioProducts 1 1).length ≤ 1 ∧
    ((get_similar_products
        ⟨[(1, [1]), (2, [1])], some (fun _ => [(1, some 0), ((9 : ℚ)/10, some 1)])⟩
        scenarioProducts 1 1).map (·.productId)).Sublist
      (resolvedIds
        (RecState.embKeys ⟨[(1, [1]), (2, [1])],
          some (fun _ => [(1, some 0), ((9 : ℚ)/10, some 1)])⟩)
        ((fun _ => [((1 : ℚ), some 0), ((9 : ℚ)/10, some 1)]) (1 + 1))) ∧
    (∀ search' : Nat → List (ℚ × Option Nat),
      search' (1 + 1) = (fun _ => [((1 : ℚ), some 0), ((9 : ℚ)/10, some 1)]) (1 + 1) →
      get_similar_products ⟨[(1, [1]), (2, [1])], some search'⟩ scenarioProducts 1 1 =
        get_similar_products
          ⟨[(1, [1]), (2, [1])], some (fun _ => [(1, some 0), ((9 : ℚ)/10, some 1)])⟩
          scenarioProducts 1 1) :=
  getSimilarProducts_excludes_self
    ⟨[(1, [1]), (2, [1])], some (fun _ => [(1, some 0), ((9 : ℚ)/10, some 1)])⟩
    scenarioProducts 1 1 (fun _ => [(1, some 0), ((9 : ℚ)/10, some 1)]) rfl (by decide)

/-- C3: for a user whose set of qualifying purchases is empty,
`get_user_recommendations` returns exactly the ordered list of
`get_popular_products(limit)`, with no partial blend. -/
theorem getUserRecommendations_empty_history_eq_popular (st : RecState)
    (products : List Product) (items : List OrderItem) (orders : List Order)
    (userId limit : Nat)
    (h : purchasedProductIds products items orders userId = []) :
    get_user_recommendations st products items orders userId limit =
      get_popular_products products limit := by
  unfold get_user_recommendations
  simp [h]

/-- Witness for C3 at a concrete empty purchase history. -/
theorem getUserRecommendations_empty_history_eq_popular_witness :
    purchasedProductIds scenarioProducts [] [] 42 = [] ∧
    get_user_recommendations ⟨[], none⟩ scenarioProducts [] [] 42 10 =
      get_popular_products scenarioProducts 10 :=
  ⟨rfl, getUserRecommendations_empty_history_eq_popular ⟨[], none⟩
    scenarioProducts [] [] 42 10 rfl⟩

/-- C10: for a user whose qualifying purchase set is non-empty but whose
purchased product ids all lack an embedding, `get_user_recommendations`
returns the empty list — it neither raises nor falls back to popular
products. -/
theorem getUserRecommendations_unknown_purchases_empty (st : RecState)
    (products : List Product) (items : List OrderItem) (orders : List Order)
    (userId limit : Nat)
    (hne : purchasedProductIds products items orders userId ≠ [])
    (hunknown : ∀ pid ∈ purchasedProductIds products items orders userId,
      pid ∉ st.embKeys) :
    get_user_recommendations st products items orders userId limit = [] := by
  unfold get_user_recommendations
  rw [if_neg hne, similar_foldr_nil st products _ hunknown]
  simp [dedupExcluding]

/-- Witness for C10: one delivered purchase of a product that has no
stored embedding yields the empty recommendation list. -/
theorem getUserRecommendations_unknown_purchases_empty_witness :
    purchasedProductIds scenarioProducts [⟨1, 6, 1, 1⟩] [⟨6, 42, "delivered", 0⟩] 42 ≠ [] ∧
    (∀ pid ∈ purchasedProductIds scenarioProducts [⟨1, 6, 1, 1⟩] [⟨6, 42, "delivered", 0⟩] 42,
      pid ∉ RecState.embKeys ⟨[], some (fun _ => [])⟩) ∧
    get_user_recommendations ⟨[], some (fun _ => [])⟩ scenarioProducts
      [⟨1, 6, 1, 1⟩] [⟨6, 42, "delivered", 0⟩] 42 10 = [] :=
  ⟨by decide, by decide,
    getUserRecommendations_unknown_purchases_empty ⟨[], some (fun _ => [])⟩
      scenarioProducts [⟨1, 6, 1, 1⟩] [⟨6, 42, "delivered", 0⟩] 42 10
      (by decide) (by decide)⟩

/-- C7: when no trained classifier exists or `predict` raises on the
classification text, `classify_product` swallows the error, proceeds with
a null prediction and confidence `0.0`, and the returned result
substitutes the default category id `1` for the null. -/
theorem classifyProduct_degrades_on_predict_failure
    (classifier : Option CategoryClassifier) (categories : List Category)
    (products : List Product) (title : String) (description : Option String)
    (h : classifier = none ∨ ∃ c e, classifier = some c ∧
      c.predict (classifyText title description) = .error e) :
    classifyPredict classifier (classifyText title description) = (none, 0) ∧
    (classify_product classifier categories products title description).categoryId = 1 ∧
    (classify_product classifier categories products title description).confidence = 0 := by
  have hpred : classifyPredict classifier (classifyText title description) = (none, 0) := by
    rcases h with h | ⟨c, e, hc, herr⟩
    · rw [h]; rfl
    · rw [hc]; simp [classifyPredict, herr]
  refine ⟨hpred, ?_, ?_⟩ <;>
    simp [classify_product, hpred, defaultedCategoryId, pyTruthy, _suggest_price_range]

/-- Witness for C7 with a classifier whose `predict` raises. -/
theorem classifyProduct_degrades_on_predict_failure_witness :
    (classify_product (some ⟨fun _ => .error (), fun _ => .ok 1⟩) [] [] "Red Wallet"
      none).categoryId = 1 ∧
    (classify_product (some ⟨fun _ => .error (), fun _ => .ok 1⟩) [] [] "Red Wallet"
      none).confidence = 0 :=
  ⟨(classifyProduct_degrades_on_predict_failure
      (some ⟨fun _ => .error (), fun _ => .ok 1⟩) [] [] "Red Wallet" none
      (Or.inr ⟨_, (), rfl, rfl⟩)).2.1,
   (classifyProduct_degrades_on_predict_failure
      (some ⟨fun _ => .error (), fun _ => .ok 1⟩) [] [] "Red Wallet" none
      (Or.inr ⟨_, (), rfl, rfl⟩)).2.2⟩

/-- C2: the price-range estimator returns `None` on a null category id and
on a category with no active priced products; on the concrete scenario
[10, 20, 30, 40, 50] it returns {min 21, max 39, average 30}; and in
general, for a non-zero category id whose active price list is non-empty
with minimum `m` and maximum `M`, it returns
{min = max m (mean * 0.7), max = min M (mean * 1.3), average = mean}. -/
theorem suggestPriceRange_spec :
    (∀ products : List Product, _suggest_price_range none products = none) ∧
    (∀ (cid : Nat) (products : List Product),
      categoryActivePrices cid products = [] →
      _suggest_price_range (some cid) products = none) ∧
    (_suggest_price_range (some 1) scenarioProducts = some ⟨21, 39, 30⟩) ∧
    (∀ (cid : Nat) (products : List Product) (m M : ℚ), cid ≠ 0 →
      (categoryActivePrices cid products).min? = some m →
      (categoryActivePrices cid products).max? = some M →
      _suggest_price_range (some cid) products =
        some ⟨max m ((categoryActivePrices cid products).sum /
            ((categoryActivePrices cid products).length : ℚ) * (7/10)),
          min M ((categoryActivePrices cid products).sum /
            ((categoryActivePrices cid products).length : ℚ) * (13/10)),
          (categoryActivePrices cid products).sum /
            ((categoryActivePrices cid products).length : ℚ)⟩) := by
  refine ⟨fun products => rfl, ?_,
    by norm_num [_suggest_price_range, pyTruthy, categoryActivePrices, scenarioProducts], ?_⟩
  · intro cid products hempty
    unfold _suggest_price_range
    cases hcid : pyTruthy (some cid)
    · rfl
    · simp [hcid, hempty]
  · intro cid products m M hcid hmin hmax
    unfold _suggest_price_range
    have htru : pyTruthy (some cid) = true := by
      cases cid with
      | zero => exact absurd rfl hcid
      | succ n => rfl
    rw [if_pos htru]
    cases hp : categoryActivePrices cid products with
    | nil => rw [hp] at hmin; exact absurd hmin (by simp [List.min?])
    | cons q qs =>
      rw [hp] at hmin hmax
      have hm : m = qs.foldl min q := by
        have hd : (q :: qs).min? = some (qs.foldl min q) := rfl
        rw [hd] at hmin; exact (Option.some_inj.1 hmin).symm
      have hM : M = qs.foldl max q := by
        have hd : (q :: qs).max? = some (qs.foldl max q) := rfl
        rw [hd] at hmax; exact (Option.some_inj.1 hmax).symm
      dsimp only
      rw [hp, hm, hM]

/-- Witness for C2's conditional parts at the concrete scenario. -/
theorem suggestPriceRange_spec_witness :
    _suggest_price_range (some 1) ([] : List Product) = none ∧
    _suggest_price_range (some 1) scenarioProducts =
      some ⟨max 10 (30 * (7/10)), min 50 (30 * (13/10)), 30⟩ :=
  ⟨suggestPriceRange_spec.2.1 1 [] rfl,
   by
    have h := suggestPriceRange_spec.2.2.2 1 scenarioProducts 10 50 (by decide)
      (by decide) (by decide)
    rw [h]
    norm_num [categoryActivePrices, scenarioProducts]⟩

/-- C5 counterexample: an artifact that exists on disk but fails to
deserialise (corrupt pickle) makes `_load_or_create_vector_db` raise: the
failure propagates to the caller instead of triggering a rebuild. -/
theorem loadOrCreateVectorDb_corrupt_raises :
    _load_or_create_vector_db ⟨true, true, false, true⟩ = .error () ∧
    _load_or_create_vector_db ⟨true, true, false, true⟩ ≠ .ok true ∧
    _load_classification_models ⟨true, false, true, true⟩ = .error () :=
  ⟨rfl, fun h => Except.noConfusion h, rfl⟩

/-- C5 amended: only a MISSING artifact triggers the synchronous rebuild;
an artifact that exists but is unreadable/corrupt makes the loader raise,
and the failure propagates to the caller.  (Both readable files load
without rebuilding.)  The classification loader behaves the same way:
absent model files trigger a build, a present-but-corrupt model file
raises. -/
theorem loadOrCreateVectorDb_amended :
    (∀ fs : VectorArtifactFS,
      fs.vectorFileExists = false ∨ fs.indexFileExists = false →
      _load_or_create_vector_db fs = .ok true) ∧
    (∀ fs : VectorArtifactFS, fs.vectorFileExists = true →
      fs.indexFileExists = true → fs.vectorFileReadable = true →
      fs.indexFileReadable = true → _load_or_create_vector_db fs = .ok false) ∧
    (∀ fs : VectorArtifactFS, fs.vectorFileExists = true →
      fs.indexFileExists = true →
      fs.vectorFileReadable = false ∨ fs.indexFileReadable = false →
      _load_or_create_vector_db fs = .error ()) ∧
    (∀ fs : ClassifierArtifactFS,
      (fs.categoryFileExists = true → fs.categoryFileReadable = true) →
      (fs.tagFileExists = true → fs.tagFileReadable = true) →
      _load_classification_models fs =
        .ok (!fs.categoryFileExists || !fs.tagFileExists)) ∧
    (∀ fs : ClassifierArtifactFS,
      (fs.categoryFileExists = true ∧ fs.categoryFileReadable = false) ∨
      ((fs.categoryFileExists = true → fs.categoryFileReadable = true) ∧
        fs.tagFileExists = true ∧ fs.tagFileReadable = false) →
      _load_classification_models fs = .error ()) := by
  refine ⟨?_, ?_, ?_, ?_, ?_⟩ <;> intro fs
  · rintro (h | h) <;> rcases fs with ⟨a, b, c, d⟩ <;> subst h
    · rfl
    · cases a <;> rfl
  · rintro h1 h2 h3 h4; rcases fs with ⟨a, b, c, d⟩
    subst h1; subst h2; subst h3; subst h4; rfl
  · rintro h1 h2 h
    rcases fs with ⟨a, b, c, d⟩
    subst h1; subst h2
    rcases h with h | h <;> subst h
    · rfl
    · cases c <;> rfl
  · intro h1 h2
    rcases fs with ⟨a, b, c, d⟩
    cases a with
    | false =>
      cases c with
      | false => rfl
      | true => have hd := h2 rfl; subst hd; rfl
    | true =>
      have hb := h1 rfl; subst hb
      cases c with
      | false => rfl
      | true => have hd := h2 rfl; subst hd; rfl
  · rintro (⟨h1, h2⟩ | ⟨h1, h2, h3⟩) <;> rcases fs with ⟨a, b, c, d⟩
    · subst h1; subst h2; rfl
    · subst h2; subst h3
      cases a with
      | false => rfl
      | true => have hb := h1 rfl; subst hb; rfl

/-- Witness for C5's amended statement at concrete filesystem states. -/
theorem loadOrCreateVectorDb_amended_witness :
    _load_or_create_vector_db ⟨false, true, true, true⟩ = .ok true ∧
    _load_or_create_vector_db ⟨true, true, true, true⟩ = .ok false ∧
    _load_or_create_vector_db ⟨true, true, true, false⟩ = .error () ∧
    _load_classification_models ⟨false, false, false, false⟩ = .ok true ∧
    _load_classification_models ⟨true, true, true, false⟩ = .error () :=
  ⟨loadOrCreateVectorDb_amended.1 ⟨false, true, true, true⟩ (Or.inl rfl),
   loadOrCreateVectorDb_amended.2.1 ⟨true, true, true, true⟩ rfl rfl rfl rfl,
   loadOrCreateVectorDb_amended.2.2.1 ⟨true, true, true, false⟩ rfl rfl (Or.inr rfl),
   loadOrCreateVectorDb_amended.2.2.2.1 ⟨false, false, false, false⟩
     (fun h => Bool.noConfusion h) (fun h => Bool.noConfusion h),
   loadOrCreateVectorDb_amended.2.2.2.2 ⟨true, true, true, false⟩
     (Or.inr ⟨fun _ => rfl, rfl, rfl⟩)⟩

/-- C8: after a rebuild, the id-to-position mapping (the embedding dict)
and the index's internal storage have equal length and corresponding
order: the `i`-th key of the dict is the active product whose vector sits
at index position `i`, and the `i`-th value is that very vector.  The
build is a pure function of the catalog producing both structures afresh
(no incremental mutation); an empty active catalog yields no index and an
empty dict.  Hypotheses: the encoder returns one vector per input text,
and product ids are unique (primary key). -/
theorem buildVectorDb_mapping_matches_index (encode : List String → List Vec)
    (normalize : Vec → Vec) (products : List Product)
    (hlen : ∀ texts, (encode texts).length = texts.length)
    (hids : (products.map (·.id)).Nodup) :
    (products.filter (fun p => p.status = "active") = [] →
      _build_vector_db encode normalize products = (none, [])) ∧
    (∀ storage embMap,
      _build_vector_db encode normalize products = (some storage, embMap) →
      embMap.length = storage.length ∧
      embMap.map Prod.fst = (products.filter (fun p => p.status = "active")).map (·.id) ∧
      embMap.map Prod.snd = storage) := by
  constructor
  · intro hempty
    unfold _build_vector_db
    rw [hempty]
    rfl
  · intro storage embMap hbuild
    unfold _build_vector_db at hbuild
    set actives := products.filter (fun p => p.status = "active") with hactives
    by_cases hempty : actives = []
    · rw [if_pos hempty] at hbuild
      exact absurd (congrArg Prod.fst hbuild) (by simp)
    · rw [if_neg hempty] at hbuild
      have hid2 : (actives.map (·.id)).Nodup := by
        have hsub : (actives.map (·.id)).Sublist (products.map (·.id)) :=
          (List.filter_sublist products).map (·.id)
        exact hsub.nodup hids
      simp only [Prod.mk.injEq, Option.some.injEq] at hbuild
      obtain ⟨h1, h2⟩ := hbuild
      have hstorage : storage = (encode (actives.map productText)).map normalize := h1.symm
      have hlens : (actives.map (·.id)).length =
          ((encode (actives.map productText)).map normalize).length := by
        rw [List.length_map, List.length_map, hlen, List.length_map]
      have hzipnodup :
          (((actives.map (·.id)).zip
            ((encode (actives.map productText)).map normalize)).map Prod.fst).Nodup := by
        rw [List.map_fst_zip _ _ (le_of_eq hlens)]
        exact hid2
      have hmap : embMap = (actives.map (·.id)).zip
          ((encode (actives.map productText)).map normalize) := by
        rw [← h2, dictOfZip_eq_self _ hzipnodup]
      refine ⟨?_, ?_, ?_⟩
      · rw [hmap, hstorage, List.length_zip, hlens]
        simp
      · rw [hmap, List.map_fst_zip _ _ (le_of_eq hlens)]
      · rw [hmap, hstorage, List.map_snd_zip _ _ (le_of_eq hlens.symm)]

/-- Witness for C8 with a trivial encoder over the concrete scenario
catalog. -/
theorem buildVectorDb_mapping_matches_index_witness :
    (scenarioProducts.filter (fun p => p.status = "active") = [] →
      _build_vector_db (fun ts => ts.map (fun _ => ([] : Vec))) id scenarioProducts =
        (none, [])) ∧
    (∀ storage embMap,
      _build_vector_db (fun ts => ts.map (fun _ => ([] : Vec))) id scenarioProducts =
        (some storage, embMap) →
      embMap.length = storage.length ∧
      embMap.map Prod.fst =
        (scenarioProducts.filter (fun p => p.status = "active")).map (·.id) ∧
      embMap.map Prod.snd = storage) :=
  buildVectorDb_mapping_matches_index (fun ts => ts.map (fun _ => ([] : Vec))) id
    scenarioProducts (fun texts => by simp) (by decide)

/-- C9 counterexample: a category whose single active priced product costs
−10 (no layer of the repository forbids negative prices) makes the
estimator return `suggested_min = −7 > −13 = suggested_max`, refuting
`suggested_min ≤ suggested_max` as a universal property. -/
theorem suggestPriceRange_negative_price_violates_order :
    _suggest_price_range (some 1) negativePriceProducts =
      some ⟨-7, -13, -10⟩ ∧
    ¬((-7 : ℚ) ≤ -13) := by
  constructor
  · norm_num [_suggest_price_range, pyTruthy, categoryActivePrices, negativePriceProducts]
  · norm_num

/-- C9 amended: whenever the estimator returns a range for a category,
`min(prices) ≤ average ≤ max(prices)` holds unconditionally, and
`suggested_min ≤ suggested_max` holds provided the category's active
prices are nonnegative (the hypothesis the negative-price counterexample
forces). -/
theorem suggestPriceRange_bounds (cid : Nat) (products : List Product)
    (q : ℚ) (qs : List ℚ) (hcid : cid ≠ 0)
    (hp : categoryActivePrices cid products = q :: qs) :
    ∀ r, _suggest_price_range (some cid) products = some r →
      (qs.foldl min q ≤ r.averagePrice ∧ r.averagePrice ≤ qs.foldl max q) ∧
      ((∀ x ∈ q :: qs, 0 ≤ x) → r.minPrice ≤ r.maxPrice) := by
  intro r hres
  have htru : pyTruthy (some cid) = true := by
    cases cid with
    | zero => exact absurd rfl hcid
    | succ n => rfl
  unfold _suggest_price_range at hres
  rw [if_pos htru] at hres
  dsimp only at hres
  rw [hp] at hres
  dsimp only at hres
  have hr : r = ⟨max (qs.foldl min q) ((q :: qs).sum / (((q :: qs).length : ℚ)) * (7/10)),
      min (qs.foldl max q) ((q :: qs).sum / (((q :: qs).length : ℚ)) * (13/10)),
      (q :: qs).sum / (((q :: qs).length : ℚ))⟩ :=
    (Option.some_inj.1 hres).symm
  subst hr
  set m := qs.foldl min q with hm
  set M := qs.foldl max q with hM
  set a := (q :: qs).sum / (((q :: qs).length : ℚ)) with ha
  have hnpos : (0 : ℚ) < (((q :: qs).length : ℚ)) := by
    rw [List.length_cons]
    push_cast
    positivity
  have hmlow : ∀ x ∈ q :: qs, m ≤ x := by
    intro x hx
    rcases List.mem_cons.1 hx with hx | hx
    · subst hx; exact foldl_min_le_init qs x
    · exact foldl_min_le_mem qs q x hx
  have hMhigh : ∀ x ∈ q :: qs, x ≤ M := by
    intro x hx
    rcases List.mem_cons.1 hx with hx | hx
    · subst hx; exact init_le_foldl_max qs x
    · exact mem_le_foldl_max qs q x hx
  have hma : m ≤ a := by
    rw [ha, le_div_iff₀ hnpos]
    exact mul_length_le_sum (q :: qs) m hmlow
  have haM : a ≤ M := by
    rw [ha, div_le_iff₀ hnpos]
    exact sum_le_mul_length (q :: qs) M hMhigh
  refine ⟨⟨hma, haM⟩, ?_⟩
  intro hnonneg
  have hanneg : 0 ≤ a := by
    rw [ha]
    exact div_nonneg (List.sum_nonneg hnonneg) (le_of_lt hnpos)
  dsimp only
  refine le_min (max_le (hma.trans haM) (by linarith)) (max_le (by linarith) (by linarith))

/-- C4: under unique catalog product ids (primary key), unique embedding
keys (dict keys) and distinct labels per index search (flat-index
contract), every strategy — similar items, user history, category top,
popular, trending, new arrivals, personalized — returns a list with no
two entries sharing a `product_id`; and the merge deduplication always
keeps the first occurrence of an id together with its `reason`
(first-writer-wins: every surviving entry is the first entry of the
merged input carrying its product id). -/
theorem recommendation_outputs_nodup (st : RecState) (products : List Product)
    (items : List OrderItem) (orders : List Order)
    (hprod : (products.map (·.id)).Nodup)
    (hkeys : st.embKeys.Nodup)
    (hsearch : ∀ s n, st.index = some s → ((s n).filterMap Prod.snd).Nodup) :
    (∀ productId limit,
      ((get_similar_products st products productId limit).map (·.productId)).Nodup) ∧
    (∀ userId limit,
      ((get_user_recommendations st products items orders userId limit).map
        (·.productId)).Nodup) ∧
    (∀ categoryId limit,
      ((get_category_recommendations products categoryId limit).map
        (·.productId)).Nodup) ∧
    (∀ limit, ((get_popular_products products limit).map (·.productId)).Nodup) ∧
    (∀ weekAgo limit categoryId,
      ((get_trending_products products items orders weekAgo limit categoryId).map
        (·.productId)).Nodup) ∧
    (∀ limit categoryId,
      ((get_new_arrivals products limit categoryId).map (·.productId)).Nodup) ∧
    (∀ userId limit,
      ((get_personalized_recommendations st products items orders userId limit).map
        (·.productId)).Nodup) ∧
    (∀ recs : List RecItem, ∀ r ∈ dedupExcluding [] recs,
      recs.find? (fun x => x.productId = r.productId) = some r) :=
  ⟨fun pid lim => get_similar_products_nodup st products pid lim hkeys hsearch,
   fun u lim => get_user_recommendations_nodup st products items orders u lim hprod,
   fun c lim => get_category_recommendations_nodup products c lim hprod,
   fun lim => get_popular_products_nodup products lim hprod,
   fun w lim c => get_trending_products_nodup products items orders w lim c,
   fun lim c => get_new_arrivals_nodup products lim c hprod,
   fun u lim => get_personalized_recommendations_nodup st products items orders u lim,
   fun recs r hr => dedupExcluding_find_first recs [] r hr⟩

/-- Witness for C4 at a concrete catalog, purchase history and merged
duplicate-id list (two entries with product id 1, different reasons: the
first one and its reason survive). -/
theorem recommendation_outputs_nodup_witness :
    ((get_similar_products ⟨[], none⟩ scenarioProducts 1 5).map (·.productId)).Nodup ∧
    ((get_user_recommendations ⟨[], none⟩ scenarioProducts [⟨1, 6, 1, 1⟩]
      [⟨6, 42, "delivered", 0⟩] 42 10).map (·.productId)).Nodup ∧
    ((get_category_recommendations scenarioProducts 1 10).map (·.productId)).Nodup ∧
    ((get_popular_products scenarioProducts 10).map (·.productId)).Nodup ∧
    ((get_trending_products scenarioProducts [⟨1, 6, 1, 1⟩] [⟨6, 42, "delivered", 0⟩]
      0 10 none).map (·.productId)).Nodup ∧
    ((get_new_arrivals scenarioProducts 10 none).map (·.productId)).Nodup ∧
    ((get_personalized_recommendations ⟨[], none⟩ scenarioProducts [⟨1, 6, 1, 1⟩]
      [⟨6, 42, "delivered", 0⟩] 42 10).map (·.productId)).Nodup ∧
    ([(⟨1, "x", 1, none, 1, "A"⟩ : RecItem), ⟨1, "y", 2, none, 2, "B"⟩].find?
      (fun x => x.productId = (⟨1, "x", 1, none, 1, "A"⟩ : RecItem).productId) =
      some ⟨1, "x", 1, none, 1, "A"⟩) := by
  have h := recommendation_outputs_nodup ⟨[], none⟩ scenarioProducts
    [⟨1, 6, 1, 1⟩] [⟨6, 42, "delivered", 0⟩] (by decide) (by decide)
    (fun s n hidx => nomatch hidx)
  exact ⟨h.1 1 5, h.2.1 42 10, h.2.2.1 1 10, h.2.2.2.1 10, h.2.2.2.2.1 0 10 none,
    h.2.2.2.2.2.1 10 none, h.2.2.2.2.2.2.1 42 10,
    h.2.2.2.2.2.2.2 [⟨1, "x", 1, none, 1, "A"⟩, ⟨1, "y", 2, none, 2, "B"⟩]
      ⟨1, "x", 1, none, 1, "A"⟩ (by decide)⟩

/-- C6 counterexample: the category-tag sampler has no status filter — a
category whose only tagged product is INACTIVE still contributes its
tags, while the spec's "active products only" sampling would return
nothing. -/
theorem getCategoryTags_counts_inactive_products :
    _get_category_tags 3 inactiveTaggedProducts = ["vintage"] ∧
    getCategoryTagsSpec 3 inactiveTaggedProducts = [] ∧
    _get_category_tags 3 inactiveTaggedProducts ≠
      getCategoryTagsSpec 3 inactiveTaggedProducts := by
  refine ⟨?_, ?_, ?_⟩
  · simp [_get_category_tags, mostCommonKeys, countOccs, countOccsStep, flattenTags, flattenStep, categoryTagSample,
      inactiveTaggedProducts, List.mergeSort]
  · simp [getCategoryTagsSpec, mostCommonKeys, countOccs, countOccsStep, flattenTags, flattenStep,
      inactiveTaggedProducts, List.mergeSort]
  · intro h
    rw [show _get_category_tags 3 inactiveTaggedProducts = ["vintage"] by
        simp [_get_category_tags, mostCommonKeys, countOccs, countOccsStep, flattenTags, flattenStep, categoryTagSample,
          inactiveTaggedProducts, List.mergeSort],
      show getCategoryTagsSpec 3 inactiveTaggedProducts = [] by
        simp [getCategoryTagsSpec, mostCommonKeys, countOccs, countOccsStep, flattenTags, flattenStep,
          inactiveTaggedProducts, List.mergeSort]] at h
    exact List.noConfusion h

/-- C6 amended: `_get_category_tags` samples up to 100 products of the
category with non-null tags REGARDLESS of status (the product status is
never consulted), flattens their tag lists, and returns at most the 10
most frequent tags: every returned tag occurs in the flattened sample,
and any sampled tag left out of the result occurs no more often than any
returned tag. -/
theorem getCategoryTags_amended (cid : Nat) (products : List Product) :
    (∀ f : Product → String,
      _get_category_tags cid (products.map (fun p => {p with status := f p})) =
        _get_category_tags cid products) ∧
    (_get_category_tags cid products).length ≤ 10 ∧
    (∀ t ∈ _get_category_tags cid products,
      t ∈ flattenTags (categoryTagSample cid products)) ∧
    (∀ t ∈ _get_category_tags cid products,
      ∀ s ∈ flattenTags (categoryTagSample cid products),
        s ∉ _get_category_tags cid products →
        (flattenTags (categoryTagSample cid products)).count s ≤
          (flattenTags (categoryTagSample cid products)).count t) := by
  refine ⟨?_, mostCommonKeys_length_le 10 _, mostCommonKeys_subset 10 _,
    mostCommonKeys_most_frequent 10 _⟩
  intro f
  unfold _get_category_tags categoryTagSample
  rw [List.filter_map]
  have hpred : ((fun p => p.categoryId = cid && p.tags ≠ none) ∘
      (fun p => { p with status := f p })) =
      (fun p : Product => p.categoryId = cid && p.tags ≠ none) := rfl
  rw [hpred, ← List.map_take,
    flattenTags_map_of_tags_eq (fun p => { p with status := f p }) (fun p => rfl)]

/-- Witness for C6's amended statement: the status-blindness instance, a
returned tag belonging to the sample, and the frequency comparison for
the eleventh tag excluded by the top-10 truncation. -/
theorem getCategoryTags_amended_witness :
    _get_category_tags 3 (inactiveTaggedProducts.map
      (fun p => { p with status := (fun _ => "active") p })) =
      _get_category_tags 3 inactiveTaggedProducts ∧
    "vintage" ∈ flattenTags (categoryTagSample 3 inactiveTaggedProducts) ∧
    (flattenTags (categoryTagSample 5 manyTagsProducts)).count "t11" ≤
      (flattenTags (categoryTagSample 5 manyTagsProducts)).count "t01" := by
  refine ⟨(getCategoryTags_amended 3 inactiveTaggedProducts).1 _, ?_, ?_⟩
  · refine (getCategoryTags_amended 3 inactiveTaggedProducts).2.2.1 "vintage" ?_
    simp [_get_category_tags, mostCommonKeys, countOccs, countOccsStep, flattenTags,
      flattenStep, categoryTagSample, inactiveTaggedProducts, List.mergeSort]
  · refine (getCategoryTags_amended 5 manyTagsProducts).2.2.2 "t01" ?_ "t11" ?_ ?_ <;>
      simp [_get_category_tags, mostCommonKeys, countOccs, countOccsStep, flattenTags,
        flattenStep, categoryTagSample, manyTagsProducts, List.mergeSort]

/-- Witness for C9's amended statement at the concrete scenario
[10, 20, 30, 40, 50]. -/
theorem suggestPriceRange_bounds_witness :
    ([20, 30, 40, 50] : List ℚ).foldl min 10 ≤ (30 : ℚ) ∧ (30 : ℚ) ≤
      ([20, 30, 40, 50] : List ℚ).foldl max 10 ∧ (21 : ℚ) ≤ 39 := by
  have h := suggestPriceRange_bounds 1 scenarioProducts 10 [20, 30, 40, 50]
    (by decide) (by norm_num [categoryActivePrices, scenarioProducts]) ⟨21, 39, 30⟩
    (by norm_num [_suggest_price_range, pyTruthy, categoryActivePrices, scenarioProducts])
  exact ⟨h.1.1, h.1.2, h.2 (by norm_num)⟩

end Marketplace
